import Mathlib

/-!
Verification of the A2A task-lifecycle demo servers.

Each namespace below is a shallow embedding of one server module:

* `A2A.CancelTasks`    — `10_CancelTasks/server.py` (`Cancelable30sExecutor`)
* `A2A.ListTasks`      — `10_ListTasks/server.py` (`InspectableInMemoryTaskStore`)
* `A2A.Configuration`  — `04_Configuration/server.py` (`ConfigurationDemoExecutor`)
* `A2A.MultiTurn`      — `07_MultiTurn_Context/server.py` (`MultiTurnStreamingExecutor`)

Python dicts keyed by strings are embedded as association lists, async
side effects as explicit state passing, and the per-task cancellation
flag (`asyncio.Event`) as a boolean schedule giving the flag's value at
each observation point.
-/

namespace A2A

/-- The task lifecycle states (`a2a.types.TaskState`):
`submitted → working → \x7binput_required ↔ working\x7d → \x7bcompleted | failed | rejected | canceled\x7d`. -/
inductive TaskState where
  | submitted
  | working
  | input_required
  | completed
  | failed
  | rejected
  | canceled
  deriving DecidableEq

/-- Wire value of each state (`TaskState.value` in the Python enum). -/
def TaskState.value : TaskState → String
  | .submitted => "submitted"
  | .working => "working"
  | .input_required => "input-required"
  | .completed => "completed"
  | .failed => "failed"
  | .rejected => "rejected"
  | .canceled => "canceled"

/-- The terminal states, exactly the set tested in
`Cancelable30sExecutor.cancel`:
`\x7bTaskState.completed, TaskState.failed, TaskState.rejected, TaskState.canceled\x7d`. -/
def TaskState.isTerminal : TaskState → Bool
  | .completed => true
  | .failed => true
  | .rejected => true
  | .canceled => true
  | _ => false

/-- Errors raised by the servers through `ServerError(...)`. -/
inductive A2AError where
  | invalidParams (message : String)
  | taskNotCancelable (message : String)
  deriving DecidableEq

/-- `d.get(k)` on a string-keyed Python dict embedded as an association list. -/
def dget {β : Type} (d : List (String × β)) (k : String) : Option β :=
  (d.find? (fun kv => kv.1 = k)).map (fun kv => kv.2)

/-- `d[k] = v`: replace the value at an existing key, else add the binding. -/
def dinsert {β : Type} (d : List (String × β)) (k : String) (v : β) : List (String × β) :=
  match d with
  | [] => [(k, v)]
  | kv :: rest => if kv.1 = k then (k, v) :: rest else kv :: dinsert rest k v

/-- `d.pop(k, None)`: drop the binding at `k` if present. -/
def dpop {β : Type} (d : List (String × β)) (k : String) : List (String × β) :=
  match d with
  | [] => []
  | kv :: rest => if kv.1 = k then rest else kv :: dpop rest k

/-- ASCII whitespace as stripped by Python `str.strip()` / `int()`. -/
def isSpaceChar (c : Char) : Bool :=
  c = ' ' || c = '\t' || c = '\n' || c = '\r' || c = '\x0b' || c = '\x0c'

/-- Leading and trailing whitespace removed. -/
def stripChars (cs : List Char) : List Char :=
  ((cs.dropWhile isSpaceChar).reverse.dropWhile isSpaceChar).reverse

namespace CancelTasks

/-! Embedding of `10_CancelTasks/server.py`: a ~30 second work loop that
checks a per-task cancellation flag once per one-second tick, plus the
`cancel` handler that rejects terminal tasks and sets the flag. -/

/-- `DURATION_SECONDS = 30`. -/
def DURATION_SECONDS : Nat := 30

/-- An event enqueued on the server's `EventQueue` for one task:
the initial `Task` snapshot (`event_queue.enqueue_event(task)`), a
status update (`updater.update_status(state, message)` — `updater.complete`
is a `completed` status update), or an artifact
(`updater.add_artifact(parts, name)`). -/
inductive Event where
  | taskSnapshot
  | status (state : TaskState) (text : String)
  | artifact (name : String) (text : String)
  deriving DecidableEq

/-- Whether an event is a status update carrying a terminal state. -/
def Event.isTerminalStatus : Event → Bool
  | .status s _ => s.isTerminal
  | _ => false

def acceptedText : String := "Accepted. Working... (~30s)"

def canceledText : String := "Canceled ✅"

/-- The progress message of tick `sec`: `f"Progress: \x7bsec\x7d/\x7bDURATION_SECONDS\x7ds"`. -/
def progressText (sec : Nat) : String :=
  "Progress: " ++ toString sec ++ "/" ++ toString DURATION_SECONDS ++ "s"

/-- One iteration `sec` of the `for sec in range(1, DURATION_SECONDS + 1)`
loop of `Cancelable30sExecutor.execute`, with `fuel` remaining iterations
(`fuel = 0` means the loop is exhausted and the completion tail runs):
after the 1 s sleep the cancel flag is checked — if set, a `canceled`
status is emitted and the coroutine returns; otherwise every 5th tick
emits a `working` progress update. After the loop, the artifact and the
`complete` call are emitted. `flagAt sec` is the value of
`cancel_ev.is_set()` observed at tick `sec`. -/
def workLoopAux (flagAt : Nat → Bool) : Nat → Nat → List Event
  | 0, _ => [Event.artifact "result.txt" "Result payload (completed)",
             Event.status .completed "Done ✅"]
  | fuel + 1, sec =>
      if flagAt sec then
        [Event.status .canceled canceledText]
      else
        (if sec % 5 == 0 then [Event.status .working (progressText sec)] else [])
          ++ workLoopAux flagAt fuel (sec + 1)

/-- The full sequence of events `Cancelable30sExecutor.execute` enqueues
for one task, given the flag schedule `flagAt`: the initial task
snapshot, the `working` acceptance status, then the work loop starting
at tick 1 with `DURATION_SECONDS` iterations. -/
def executeEvents (flagAt : Nat → Bool) : List Event :=
  Event.taskSnapshot :: Event.status .working acceptedText ::
    workLoopAux flagAt DURATION_SECONDS 1

/-- `task.status` (`TaskStatus` has a required `state`). -/
structure TaskStatus where
  state : TaskState
  deriving DecidableEq

/-- The slice of `RequestContext` read by `Cancelable30sExecutor.cancel`:
`context.task_id` and `context.current_task`, of which only
`task.status` and `task.context_id` are used. -/
structure CTask where
  context_id : String
  status : Option TaskStatus
  deriving DecidableEq

structure CancelContext where
  task_id : Option String
  current_task : Option CTask
  deriving DecidableEq

/-- Python `str(state)` as interpolated into the NotCancelable message. -/
def stateText : Option TaskState → String
  | none => "None"
  | some s => "TaskState." ++ s.value

/-- `Cancelable30sExecutor.cancel`, with the module-level
`CANCEL_EVENT_BY_TASK_ID` dict passed in as the set `flags` of task ids
whose `asyncio.Event` is set. Returns the updated flag set and the
events enqueued; raising `ServerError(...)` is the `Except.error` case
(`_raise_not_cancelable` raises `TaskNotCancelableError` when the SDK
provides it, which this model assumes). -/
def cancel (flags : List String) (context : CancelContext) :
    Except A2AError (List String × List Event) :=
  match context.task_id with
  | none => .error (.invalidParams "missing task id")
  | some task_id =>
    match context.current_task with
    | none => .error (.invalidParams "task not found")
    | some task =>
      let state : Option TaskState := task.status.map TaskStatus.state
      if state ∈ [some TaskState.completed, some TaskState.failed,
                  some TaskState.rejected, some TaskState.canceled] then
        .error (.taskNotCancelable
          ("Task cannot be canceled - current state: " ++ stateText state))
      else
        .ok (if task_id ∈ flags then flags else flags ++ [task_id],
             [Event.status .canceled canceledText])

/-- A cancel request context whose resolved task snapshot is in the
`working` state (the state persisted after `execute` enqueued its
acceptance update). -/
def cancelCtxWorking : CancelContext :=
  { task_id := some "task-1"
    current_task := some { context_id := "ctx-1", status := some { state := .working } } }

/-- A cancel request context whose resolved task snapshot is already
`completed`. -/
def cancelCtxCompleted : CancelContext :=
  { task_id := some "task-2"
    current_task := some { context_id := "ctx-2", status := some { state := .completed } } }

/-- The events the `cancel` handler enqueues on `cancelCtxWorking`. -/
def cancelEventsWorking : List Event :=
  match cancel [] cancelCtxWorking with
  | .ok r => r.2
  | .error _ => []

/-- The combined enqueue order for one task when a cancel request
arrives after tick `k` of the work loop and before the flag check of
tick `k + 1`: ticks `1..k` observe an unset flag, the cancel handler
(seeing the persisted `working` snapshot) enqueues its events and sets
the flag, and the executor's check at tick `k + 1` then observes the
flag and enqueues its own `canceled` status. -/
def loopWithCancelAux (k : Nat) : Nat → Nat → List Event
  | 0, _ => [Event.artifact "result.txt" "Result payload (completed)",
             Event.status .completed "Done ✅"]
  | fuel + 1, sec =>
      if sec = k + 1 then
        cancelEventsWorking ++ [Event.status .canceled canceledText]
      else
        (if sec % 5 == 0 then [Event.status .working (progressText sec)] else [])
          ++ loopWithCancelAux k fuel (sec + 1)

/-- Full combined trace of `execute` interleaved with one `cancel`
arriving between ticks `k` and `k + 1`. -/
def traceWithCancelAfter (k : Nat) : List Event :=
  Event.taskSnapshot :: Event.status .working acceptedText ::
    loopWithCancelAux k DURATION_SECONDS 1

/-- The events enqueued strictly after the first terminal status event
of a trace (empty when the trace has no terminal status event). -/
def eventsAfterFirstTerminal : List Event → List Event
  | [] => []
  | e :: rest => if e.isTerminalStatus then rest else eventsAfterFirstTerminal rest

/-- The `working` progress updates emitted by the ticks in `[a, b)`:
one for every multiple of 5 in that range. -/
def progressInRange (a b : Nat) : List Event :=
  (List.range' a (b - a)).filterMap
    (fun s => if s % 5 == 0 then some (Event.status .working (progressText s)) else none)

end CancelTasks

namespace ListTasks

/-! Embedding of `10_ListTasks/server.py`: the
`InspectableInMemoryTaskStore` with `get`/`save`/`delete` and the
`list_snapshot` read-side projection with filtering and offset
pagination. -/

/-- A dialogue message; only its identity matters to the store. -/
structure Message where
  message_id : String
  text : String
  deriving DecidableEq

/-- An artifact; only its identity matters to the store. -/
structure Artifact where
  artifact_id : String
  name : String
  deriving DecidableEq

structure TaskStatus where
  state : TaskState
  deriving DecidableEq

/-- The `a2a.types.Task` fields used by the store: `history`,
`artifacts` and `metadata` are optional in the pydantic model
(`exclude_none=True` drops absent ones from the dump). -/
structure Task where
  id : String
  context_id : String
  status : TaskStatus
  history : Option (List Message)
  artifacts : Option (List Artifact)
  metadata : List (String × String)
  deriving DecidableEq

/-- `InspectableInMemoryTaskStore` state: the `_tasks` dict and the
`_created_order` list. The `_created_at` wall-clock map is not read by
any store operation and is omitted; the asyncio lock serializes the
methods, which the sequential embedding reflects. -/
structure InspectableInMemoryTaskStore where
  tasks : List (String × Task)
  created_order : List String
  deriving DecidableEq

/-- `InspectableInMemoryTaskStore.get`. -/
def get (store : InspectableInMemoryTaskStore) (task_id : String) : Option Task :=
  dget store.tasks task_id

/-- `InspectableInMemoryTaskStore.save`: stores the task under its id
and appends the id to `_created_order` only when the id was not yet
present in `_tasks`. -/
def save (store : InspectableInMemoryTaskStore) (task : Task) :
    InspectableInMemoryTaskStore :=
  let is_new := (dget store.tasks task.id).isNone
  { tasks := dinsert store.tasks task.id task
    created_order :=
      if is_new then store.created_order ++ [task.id] else store.created_order }

/-- `InspectableInMemoryTaskStore.delete`: `self._tasks.pop(task_id, None)`;
`_created_order` is deliberately left as is. -/
def delete (store : InspectableInMemoryTaskStore) (task_id : String) :
    InspectableInMemoryTaskStore :=
  { store with tasks := dpop store.tasks task_id }

/-- Digit run accepted by Python `int()` after the first digit: single
underscores are allowed between digits. -/
def digitTail : List Char → Bool
  | [] => true
  | '_' :: rest =>
    match rest with
    | [] => false
    | c :: rest2 => c.isDigit && digitTail rest2
  | c :: rest => c.isDigit && digitTail rest

/-- Nonempty digit run with optional underscore separators. -/
def digitRun : List Char → Bool
  | [] => false
  | c :: rest => c.isDigit && digitTail rest

/-- Numeric value of a digit run, skipping underscores. -/
def decimalValue (cs : List Char) : Nat :=
  cs.foldl (fun acc c => if c = '_' then acc else acc * 10 + (c.toNat - 48)) 0

/-- Python `int(s)` on a decimal string: surrounding whitespace, an
optional sign and a digit run with underscore separators; anything else
raises `ValueError`, the `none` case. -/
def pyInt (s : String) : Option Int :=
  match stripChars s.data with
  | '+' :: rest => if digitRun rest then some (decimalValue rest : Int) else none
  | '-' :: rest => if digitRun rest then some (-(decimalValue rest : Int)) else none
  | cs => if digitRun cs then some (decimalValue cs : Int) else none

/-- `offset = int(page_token) if page_token else 0` guarded by
`except ValueError: offset = 0`: an absent or empty token and an
unparsable token all yield offset 0. -/
def parseOffset (page_token : Option String) : Int :=
  match page_token with
  | none => 0
  | some s => if s = "" then 0 else (pyInt s).getD 0

/-- Clamp of one Python slice index into `[0, n]`. -/
def pyBound (n : Nat) (i : Int) : Nat :=
  if i < 0 then ((n : Int) + i).toNat else min i.toNat n

/-- Python `l[i:j]` (step 1). -/
def pySlice {α : Type} (l : List α) (i j : Int) : List α :=
  (l.take (pyBound l.length j)).drop (pyBound l.length i)

/-- `s.strip().lower()` over the character list. -/
def stripLower (s : String) : String :=
  String.mk ((stripChars s.data).map Char.toLower)

/-- `status_norm = status.strip().lower() if status else None`. -/
def status_norm (status : Option String) : Option String :=
  match status with
  | none => none
  | some s => if s = "" then none else some (stripLower s)

/-- The two `continue` guards of the filter loop, as a keep-predicate:
a falsy (`None` or empty) filter matches everything; `status` compares
against `t.status.state.value`. -/
def keep (context_id status_n : Option String) (t : Task) : Bool :=
  (match context_id with
   | none => true
   | some cid => if cid = "" then true else t.context_id == cid) &&
  (match status_n with
   | none => true
   | some sn => if sn = "" then true else t.status.state.value == sn)

/-- The `filtered` list of the loop body: walk `_created_order`, skip
ids whose task is gone from `_tasks`, keep tasks passing the filters. -/
def filteredTasks (store : InspectableInMemoryTaskStore)
    (context_id status_n : Option String) : List Task :=
  store.created_order.filterMap (fun tid =>
    match dget store.tasks tid with
    | none => none
    | some t => if keep context_id status_n t then some t else none)

/-- The response projection of one task
(`t.model_dump(...)` followed by `d.pop("history", None)` and, when
`include_artifacts` is false, `d.pop("artifacts", None)`). -/
structure TaskView where
  id : String
  context_id : String
  status : TaskStatus
  history : Option (List Message)
  artifacts : Option (List Artifact)
  metadata : List (String × String)
  deriving DecidableEq

def project (include_artifacts : Bool) (t : Task) : TaskView :=
  { id := t.id
    context_id := t.context_id
    status := t.status
    history := none
    artifacts := if include_artifacts then t.artifacts else none
    metadata := t.metadata }

structure ListResult where
  tasks : List TaskView
  nextPageToken : Option String
  deriving DecidableEq

/-- `InspectableInMemoryTaskStore.list_snapshot`. The method only reads
the store; the returned second component is the store state after the
call, which the method leaves untouched. -/
def list_snapshot (store : InspectableInMemoryTaskStore)
    (context_id status : Option String) (include_artifacts : Bool)
    (page_size : Int) (page_token : Option String) :
    ListResult × InspectableInMemoryTaskStore :=
  let offset := parseOffset page_token
  let sn := status_norm status
  let filtered := filteredTasks store context_id sn
  let total := filtered.length
  let page := pySlice filtered offset (offset + page_size)
  let next_token :=
    if offset + page_size < (total : Int) then some (toString (offset + page_size))
    else none
  ({ tasks := page.map (project include_artifacts), nextPageToken := next_token },
   store)

/-- The dict invariant every store reachable through `save`/`delete`
satisfies: tasks are stored under their own id, and dict keys are
unique. -/
def storeWF (store : InspectableInMemoryTaskStore) : Prop :=
  (∀ kv ∈ store.tasks, kv.2.id = kv.1) ∧ (store.tasks.map Prod.fst).Nodup

def sampleTask1 : Task :=
  { id := "t1", context_id := "c1", status := { state := .working }
    history := some [{ message_id := "m1", text := "hi" }]
    artifacts := some [{ artifact_id := "a1", name := "result.txt" }]
    metadata := [] }

def sampleTask2 : Task :=
  { id := "t2", context_id := "c1", status := { state := .working }
    history := some [], artifacts := none, metadata := [] }

def sampleTask3 : Task :=
  { id := "t3", context_id := "c1", status := { state := .completed }
    history := some [], artifacts := some [], metadata := [] }

def newTask : Task :=
  { id := "t9", context_id := "c9", status := { state := .submitted }
    history := none, artifacts := none, metadata := [] }

/-- Three tasks of one context saved in creation order. -/
def sampleStore : InspectableInMemoryTaskStore :=
  save (save (save { tasks := [], created_order := [] } sampleTask1) sampleTask2)
    sampleTask3

end ListTasks


namespace Configuration

/-! Embedding of `04_Configuration/server.py`: the
`ConfigurationDemoExecutor` validating `historyLength` and enqueuing two
`Task` snapshot events whose histories pass through the SDK's
read-side truncation helper. -/

inductive Role where
  | user
  | agent
  deriving DecidableEq

/-- One dialogue message (`a2a.types.Message` as used here). -/
structure Message where
  role : Role
  text : String
  task_id : Option String
  context_id : Option String
  deriving DecidableEq

/-- Modelled from the spec: `new_agent_text_message` from the SDK module
`a2a.utils` (not part of this repository) builds an agent-role text
message bound to the given context and task ids. -/
def new_agent_text_message (text : String) (context_id task_id : String) : Message :=
  { role := .agent, text := text
    task_id := some task_id, context_id := some context_id }

structure Artifact where
  artifact_id : String
  name : String
  description : String
  text : String
  deriving DecidableEq

/-- The metadata dict the executor attaches — keys `"section"`,
`"phase"`, `"blocking"`, `"history_length"`. -/
structure TaskMetadata where
  sectionTag : String
  phase : String
  blocking : Bool
  history_length : Option Int
  deriving DecidableEq

structure Task where
  id : String
  context_id : String
  status_state : TaskState
  status_message : Option Message
  history : List Message
  artifacts : List Artifact
  metadata : TaskMetadata
  deriving DecidableEq

/-- `MessageSendConfiguration` fields read by the executor. -/
structure MessageSendConfiguration where
  blocking : Option Bool
  history_length : Option Int
  deriving DecidableEq

/-- The slice of `RequestContext` read by the executor. `artifact_id`
stands for the `uuid4` drawn for the result artifact. -/
structure RequestContext where
  message : Option Message
  configuration : Option MessageSendConfiguration
  task_id : String
  context_id : String
  artifact_id : String
  deriving DecidableEq

/-- `context.get_user_input()`: the text content of the inbound message. -/
def get_user_input (context : RequestContext) : String :=
  match context.message with
  | some m => m.text
  | none => ""

/-- `cfg.history_length if cfg else None`. -/
def cfgHistoryLength (context : RequestContext) : Option Int :=
  match context.configuration with
  | some c => c.history_length
  | none => none

/-- `cfg.blocking` coerced as in
`bool(cfg.blocking) if cfg and cfg.blocking is not None else False`. -/
def cfgBlocking (context : RequestContext) : Bool :=
  match context.configuration with
  | some c => match c.blocking with
    | some b => b
    | none => false
  | none => false

/-- `history_length is not None and history_length < 0`. -/
def is_negative : Option Int → Bool
  | none => false
  | some n => decide (n < 0)

/-- Modelled from the spec: `apply_history_length` from the SDK module
`a2a.utils.task` (not part of this repository) applies the read-side
history view — `history_length` unset leaves the history as is, `0`
means unlimited, `N>0` keeps only the last `N` messages; no other field
is touched and the input task is not mutated. -/
def apply_history_length (task : Task) (history_length : Option Int) : Task :=
  match history_length with
  | none => task
  | some n =>
    if n = 0 then task
    else { task with history := task.history.drop (task.history.length - n.toNat) }

/-- `ConfigurationDemoExecutor.execute`: validate the message and
`historyLength`, then enqueue the `working` snapshot and, after the
simulated workload, the `completed` snapshot with the echo artifact.
A raise of `ServerError(...)` is the `Except.error` case and enqueues
nothing; the `Except.ok` payload is the list of enqueued events, both
full `Task` snapshots. -/
def execute (context : RequestContext) : Except A2AError (List Task) :=
  match context.message with
  | none => .error (.invalidParams "missing message")
  | some message =>
    let blocking := cfgBlocking context
    let history_length := cfgHistoryLength context
    if is_negative history_length then
      .error (.invalidParams "historyLength must be >= 0")
    else
      let user_text := get_user_input context
      let started_msg :=
        new_agent_text_message "Working… (step 1/2)" context.context_id context.task_id
      let initial_history_full := [message, started_msg]
      let initial_task : Task :=
        { id := context.task_id, context_id := context.context_id
          status_state := .working, status_message := some started_msg
          history := initial_history_full, artifacts := []
          metadata := { sectionTag := "04_Configuration", phase := "initial"
                        blocking := blocking, history_length := history_length } }
      let initial_task := apply_history_length initial_task history_length
      let done_msg :=
        new_agent_text_message ("Done ✅ Echo: " ++ user_text)
          context.context_id context.task_id
      let artifact : Artifact :=
        { artifact_id := context.artifact_id, name := "result.txt"
          description := "Text artifact (demo).", text := "Echo: " ++ user_text }
      let final_history_full := [message, started_msg, done_msg]
      let final_task : Task :=
        { id := context.task_id, context_id := context.context_id
          status_state := .completed, status_message := some done_msg
          history := final_history_full, artifacts := [artifact]
          metadata := { sectionTag := "04_Configuration", phase := "final"
                        blocking := blocking, history_length := history_length } }
      let final_task := apply_history_length final_task history_length
      .ok [initial_task, final_task]

/-- A sample request: user message present, `historyLength = 1`. -/
def sampleContext : RequestContext :=
  { message := some { role := .user, text := "ping"
                      task_id := some "task-c", context_id := some "ctx-c" }
    configuration := some { blocking := some true, history_length := some 1 }
    task_id := "task-c", context_id := "ctx-c", artifact_id := "art-1" }

/-- The events `execute` enqueues on `sampleContext`. -/
def sampleExecuteTasks : List Task :=
  match execute sampleContext with
  | .ok ts => ts
  | .error _ => []

/-- A sample task used to exercise the truncation view. -/
def sampleViewTask : Task :=
  { id := "task-v", context_id := "ctx-v"
    status_state := .working, status_message := none
    history := [{ role := .user, text := "a", task_id := none, context_id := none },
                { role := .agent, text := "b", task_id := none, context_id := none }]
    artifacts := []
    metadata := { sectionTag := "04_Configuration", phase := "initial"
                  blocking := false, history_length := some 1 } }

end Configuration

namespace MultiTurn

/-! Embedding of `07_MultiTurn_Context/server.py`: the
`MultiTurnStreamingExecutor` with the module-level `PHASE_BY_TASK_ID`
side table. -/

inductive Event where
  | taskSnapshot (task_id : String)
  | status (state : TaskState) (text : String)
  | artifact (name : String) (text : String)
  deriving DecidableEq

/-- Whether an event is a status update carrying a terminal state. -/
def Event.isTerminalStatus : Event → Bool
  | .status s _ => s.isTerminal
  | _ => false

/-- The slice of a task the executor reads: its ids. -/
structure TaskStub where
  id : String
  context_id : String
  deriving DecidableEq

/-- The slice of `RequestContext` read by the executor; `fresh_task`
stands for the task `new_task(context.message)` would create when
`current_task` is absent. -/
structure RequestContext where
  current_task : Option TaskStub
  fresh_task : TaskStub
  user_input : String
  deriving DecidableEq

/-- `task = context.current_task or new_task(context.message)`. -/
def taskOf (context : RequestContext) : TaskStub :=
  match context.current_task with
  | some t => t
  | none => context.fresh_task

/-- `answer = context.get_user_input().strip()`. -/
def pyStrip (s : String) : String :=
  String.mk (stripChars s.data)

def askText : String := "Wie heißt du?"

def doneText : String := "Fertig ✅"

/-- `MultiTurnStreamingExecutor.execute`, with the module-level
`PHASE_BY_TASK_ID` dict passed in and returned: the first invocation
for a task id (no recorded phase) records `"awaiting_name"`, emits a
`working` status and pauses on `input_required`; the next invocation
(phase recorded) emits `working`, the greeting artifact and the
terminal `completed` status, and drops the phase entry. The initial
snapshot is enqueued only for a new task. -/
def execute (phases : List (String × String)) (context : RequestContext) :
    List Event × List (String × String) :=
  let is_new_task := context.current_task.isNone
  let task := taskOf context
  let initEvents := if is_new_task then [Event.taskSnapshot task.id] else []
  match dget phases task.id with
  | none =>
    (initEvents ++
      [Event.status .working "Okay — kurze Rückfrage bevor ich weiter mache…",
       Event.status .input_required askText],
     dinsert phases task.id "awaiting_name")
  | some _ =>
    let answer := pyStrip context.user_input
    (initEvents ++
      [Event.status .working ("Danke " ++ answer ++ "! Ich mache weiter…"),
       Event.artifact "greeting.txt"
         ("Hallo " ++ answer ++ "! ✅ (Multi-Turn abgeschlossen)"),
       Event.status .completed doneText],
     dpop phases task.id)

/-- Turn 1 of the sample conversation: a brand-new task. -/
def sampleCtxTurn1 : RequestContext :=
  { current_task := none
    fresh_task := { id := "task-m", context_id := "ctx-m" }
    user_input := "Bitte hilf mir" }

/-- Turn 2 of the sample conversation: same task id, answer supplied. -/
def sampleCtxTurn2 : RequestContext :=
  { current_task := some { id := "task-m", context_id := "ctx-m" }
    fresh_task := { id := "unused", context_id := "unused" }
    user_input := " Alice " }

end MultiTurn


end A2A

/-! ## Theorems -/

namespace A2A.CancelTasks

/-- Helper: the work loop on its own never enqueues anything after its
first terminal status event. -/
theorem workLoopAux_after_terminal (flagAt : Nat → Bool) :
    ∀ fuel sec, eventsAfterFirstTerminal (workLoopAux flagAt fuel sec) = [] := by
  intro fuel
  induction fuel with
  | zero => intro sec; rfl
  | succ fuel ih =>
    intro sec
    by_cases h : flagAt sec
    · simp [workLoopAux, h, eventsAfterFirstTerminal, Event.isTerminalStatus,
        TaskState.isTerminal]
    · by_cases h5 : sec % 5 == 0
      · simp [workLoopAux, h, h5, eventsAfterFirstTerminal, Event.isTerminalStatus,
          TaskState.isTerminal, ih (sec + 1)]
      · simp [workLoopAux, h, h5, eventsAfterFirstTerminal, ih (sec + 1)]

/-- Helper: in the combined trace, once the interleaved cancel has
enqueued its `canceled` event, the only event still to come is the
executor's own `canceled` event at the next tick. -/
theorem loopWithCancelAux_after_terminal (k : Nat) :
    ∀ fuel sec, sec ≤ k + 1 → k + 1 < sec + fuel →
      eventsAfterFirstTerminal (loopWithCancelAux k fuel sec) =
        [Event.status .canceled canceledText] := by
  intro fuel
  induction fuel with
  | zero => intro sec h1 h2; omega
  | succ fuel ih =>
    intro sec h1 h2
    by_cases h : sec = k + 1
    · simp [loopWithCancelAux, h, cancelEventsWorking, cancel, cancelCtxWorking,
        eventsAfterFirstTerminal, Event.isTerminalStatus, TaskState.isTerminal]
    · have hlt : sec < k + 1 := by omega
      by_cases h5 : sec % 5 == 0
      · simp [loopWithCancelAux, h, h5, eventsAfterFirstTerminal, Event.isTerminalStatus,
          TaskState.isTerminal, ih (sec + 1) (by omega) (by omega)]
      · simp [loopWithCancelAux, h, h5, eventsAfterFirstTerminal,
          ih (sec + 1) (by omega) (by omega)]

/-- Claim C1 (corrected, counterexample): the claim that no event
follows the first terminal status event in the combined enqueue
sequence of `execute` and `cancel` for one task is false: when a cancel
request lands between tick 1 and tick 2 of the work loop, the cancel
handler enqueues a `canceled` status (the first terminal event) and the
executor's flag check at tick 2 then enqueues a second `canceled`
status after it. -/
theorem C1_counterexample_event_after_first_terminal :
    eventsAfterFirstTerminal (traceWithCancelAfter 1) ≠ [] := by decide

/-- Claim C1 (corrected, amended): within the event sequence enqueued
by `execute` alone, no event follows the first terminal status event;
but when a cancel request succeeds between ticks `k` and `k + 1` of the
running work loop, the executor enqueues exactly one further `canceled`
status event after the cancel handler's terminal `canceled` event. -/
theorem C1_amended_terminal_last_within_execute :
    (∀ flagAt : Nat → Bool, eventsAfterFirstTerminal (executeEvents flagAt) = []) ∧
    (∀ k : Nat, k + 1 ≤ DURATION_SECONDS →
      eventsAfterFirstTerminal (traceWithCancelAfter k) =
        [Event.status .canceled canceledText]) := by
  constructor
  · intro flagAt
    simp [executeEvents, eventsAfterFirstTerminal, Event.isTerminalStatus,
      TaskState.isTerminal, workLoopAux_after_terminal flagAt DURATION_SECONDS 1]
  · intro k hk
    simp [traceWithCancelAfter, eventsAfterFirstTerminal, Event.isTerminalStatus,
      TaskState.isTerminal,
      loopWithCancelAux_after_terminal k DURATION_SECONDS 1 (by omega) (by omega)]

/-- Witness for C1's amended theorem at `flagAt = const false` and `k = 1`. -/
theorem C1_amended_witness :
    eventsAfterFirstTerminal (executeEvents (fun _ => false)) = [] ∧
    eventsAfterFirstTerminal (traceWithCancelAfter 1) =
      [Event.status .canceled canceledText] :=
  ⟨C1_amended_terminal_last_within_execute.1 (fun _ => false),
   C1_amended_terminal_last_within_execute.2 1 (by decide)⟩

/-- Claim C2 (confirmed): `cancel` on a task whose current state is
terminal (`completed`, `failed`, `rejected`, `canceled` — so also a
second cancel of an already-canceled task, and a cancel of a completed
task) raises `TaskNotCancelableError` rather than succeeding; on a
non-terminal task it succeeds, sets the task's cancellation flag and
enqueues a `canceled` status update. -/
theorem C2_cancel_terminal_rejection (flags : List String) (context : CancelContext)
    (tid : String) (task : CTask)
    (hid : context.task_id = some tid) (htask : context.current_task = some task) :
    ((task.status.map TaskStatus.state ∈
        [some TaskState.completed, some TaskState.failed,
         some TaskState.rejected, some TaskState.canceled]) →
      ∃ m, cancel flags context = .error (.taskNotCancelable m)) ∧
    ((task.status.map TaskStatus.state ∉
        [some TaskState.completed, some TaskState.failed,
         some TaskState.rejected, some TaskState.canceled]) →
      ∃ flags2, cancel flags context =
          .ok (flags2, [Event.status .canceled canceledText]) ∧ tid ∈ flags2) := by
  constructor
  · intro hterm
    refine ⟨"Task cannot be canceled - current state: " ++
      stateText (task.status.map TaskStatus.state), ?_⟩
    simp [cancel, hid, htask, hterm]
  · intro hterm
    refine ⟨if tid ∈ flags then flags else flags ++ [tid], ?_, ?_⟩
    · simp [cancel, hid, htask, hterm]
    · by_cases hmem : tid ∈ flags <;> simp [hmem]

/-- Witness for C2 at a completed task (cancel rejected) and at a
working task (cancel succeeds and sets the flag). -/
theorem C2_witness :
    ((some TaskState.completed ∈
        [some TaskState.completed, some TaskState.failed,
         some TaskState.rejected, some TaskState.canceled]) ∧
      ∃ m, cancel [] cancelCtxCompleted = .error (.taskNotCancelable m)) ∧
    ((some TaskState.working ∉
        [some TaskState.completed, some TaskState.failed,
         some TaskState.rejected, some TaskState.canceled]) ∧
      ∃ flags2, cancel [] cancelCtxWorking =
          .ok (flags2, [Event.status .canceled canceledText]) ∧ "task-1" ∈ flags2) :=
  ⟨⟨by decide,
    (C2_cancel_terminal_rejection [] cancelCtxCompleted "task-2"
      { context_id := "ctx-2", status := some { state := .completed } } rfl rfl).1
      (by decide)⟩,
   ⟨by decide,
    (C2_cancel_terminal_rejection [] cancelCtxWorking "task-1"
      { context_id := "ctx-1", status := some { state := .working } } rfl rfl).2
      (by decide)⟩⟩

/-- Helper: `progressInRange` peels off its first tick. -/
theorem progressInRange_cons (a b : Nat) (hab : a < b) :
    progressInRange a b =
      (if a % 5 == 0 then [Event.status .working (progressText a)] else []) ++
        progressInRange (a + 1) b := by
  unfold progressInRange
  have hb : b - a = (b - (a + 1)) + 1 := by omega
  rw [hb, List.range'_succ]
  by_cases h5 : a % 5 = 0 <;> simp [List.filterMap_cons, h5]

/-- Helper: if the flag is first observed set at tick `t`, the work loop
emits exactly the progress updates of the ticks before `t` followed by
one `canceled` status, and nothing else. -/
theorem workLoopAux_first_flag (flagAt : Nat → Bool) (t : Nat) (hset : flagAt t = true) :
    ∀ fuel sec, sec ≤ t → t < sec + fuel →
      (∀ s, sec ≤ s → s < t → flagAt s = false) →
      workLoopAux flagAt fuel sec =
        progressInRange sec t ++ [Event.status .canceled canceledText] := by
  intro fuel
  induction fuel with
  | zero => intro sec h1 h2 _; omega
  | succ fuel ih =>
    intro sec h1 h2 hbef
    rcases Nat.eq_or_lt_of_le h1 with heq | hlt
    · subst heq
      simp [workLoopAux, hset, progressInRange]
    · have hf : flagAt sec = false := hbef sec le_rfl hlt
      rw [progressInRange_cons sec t hlt]
      simp only [workLoopAux, hf, if_neg (by simp [hf] : ¬ flagAt sec = true)]
      rw [ih (sec + 1) hlt (by omega) (fun s hs1 hs2 => hbef s (by omega) hs2)]
      simp

/-- Claim C3 (confirmed): if the cancellation flag is set when the
work-loop check of tick `t` (1 ≤ t ≤ 30) runs — the flag being checked
once per one-second tick — and was unset at all earlier checks, then
`execute` enqueues the initial snapshot, the acceptance `working`
status, the progress updates of the ticks before `t`, and a terminal
`canceled` status at tick `t`, with no further progress, artifact or
completion event after it. -/
theorem C3_cancel_observed_at_tick (flagAt : Nat → Bool) (t : Nat)
    (h1 : 1 ≤ t) (h2 : t ≤ DURATION_SECONDS) (hset : flagAt t = true)
    (hbefore : ∀ s, 1 ≤ s → s < t → flagAt s = false) :
    executeEvents flagAt =
      Event.taskSnapshot :: Event.status .working acceptedText ::
        (progressInRange 1 t ++ [Event.status .canceled canceledText]) := by
  unfold executeEvents
  rw [workLoopAux_first_flag flagAt t hset DURATION_SECONDS 1 h1
    (by unfold DURATION_SECONDS at h2 ⊢; omega) hbefore]

/-- Witness for C3: the flag becomes set from tick 7 on; the trace is
the two progress updates of tick 5 plus the canceled status at tick 7. -/
theorem C3_witness :
    executeEvents (fun s => decide (7 ≤ s)) =
      Event.taskSnapshot :: Event.status .working acceptedText ::
        (progressInRange 1 7 ++ [Event.status .canceled canceledText]) :=
  C3_cancel_observed_at_tick (fun s => decide (7 ≤ s)) 7 (by decide) (by decide)
    (by decide) (fun s _ hs2 => by simp; omega)

end A2A.CancelTasks


namespace A2A

theorem dget_cons {β : Type} (kv : String × β) (d : List (String × β)) (k : String) :
    dget (kv :: d) k = if kv.1 = k then some kv.2 else dget d k := by
  by_cases h : kv.1 = k
  · rw [dget, List.find?_cons_of_pos _ (by simp [h])]
    simp [h]
  · rw [dget, List.find?_cons_of_neg _ (by simp [h])]
    simp [h, dget]

theorem dget_eq_none_of_not_mem {β : Type} (d : List (String × β)) (k : String)
    (h : k ∉ d.map Prod.fst) : dget d k = none := by
  induction d with
  | nil => rfl
  | cons kv rest ih =>
    simp only [List.map_cons, List.mem_cons] at h
    push_neg at h
    rw [dget_cons, if_neg (fun he => h.1 he.symm)]
    exact ih h.2

theorem dget_mem {β : Type} (d : List (String × β)) (k : String) (v : β)
    (h : dget d k = some v) : (k, v) ∈ d := by
  induction d with
  | nil => simp [dget] at h
  | cons kv rest ih =>
    rw [dget_cons] at h
    by_cases hk : kv.1 = k
    · rw [if_pos hk] at h
      obtain ⟨k1, v1⟩ := kv
      simp only [Option.some.injEq] at h
      simp only at hk
      subst hk
      subst h
      exact List.mem_cons_self _ _
    · rw [if_neg hk] at h
      exact List.mem_cons_of_mem _ (ih h)

theorem dget_dinsert {β : Type} (d : List (String × β)) (k k2 : String) (v : β) :
    dget (dinsert d k v) k2 = if k2 = k then some v else dget d k2 := by
  induction d with
  | nil =>
    rw [dinsert, dget_cons]
    by_cases h : k2 = k
    · rw [if_pos h.symm, if_pos h]
    · rw [if_neg (fun he => h he.symm), if_neg h]
  | cons kv rest ih =>
    rw [dinsert]
    by_cases hk : kv.1 = k
    · rw [if_pos hk, dget_cons, dget_cons]
      by_cases h : k2 = k
      · rw [if_pos h.symm, if_pos h]
      · rw [if_neg (fun he => h he.symm), if_neg h,
          if_neg (fun he => h (he.symm.trans hk))]
    · rw [if_neg hk, dget_cons, dget_cons, ih]
      by_cases h : k2 = k
      · subst h
        rw [if_neg hk, if_pos rfl, if_pos rfl]
      · simp only [if_neg h]

theorem dget_dpop {β : Type} (d : List (String × β))
    (hnd : (d.map Prod.fst).Nodup) (k k2 : String) :
    dget (dpop d k) k2 = if k2 = k then none else dget d k2 := by
  induction d with
  | nil =>
    by_cases h : k2 = k <;> simp [dpop, dget, h]
  | cons kv rest ih =>
    rw [List.map_cons] at hnd
    have hkv : kv.1 ∉ rest.map Prod.fst := (List.nodup_cons.mp hnd).1
    have hnd2 : (rest.map Prod.fst).Nodup := (List.nodup_cons.mp hnd).2
    rw [dpop]
    by_cases hk : kv.1 = k
    · rw [if_pos hk]
      by_cases h : k2 = k
      · rw [if_pos h]
        exact dget_eq_none_of_not_mem rest k2 (by rw [h, ← hk]; exact hkv)
      · rw [if_neg h, dget_cons, if_neg (fun he => h (he.symm.trans hk))]
    · rw [if_neg hk, dget_cons, dget_cons, ih hnd2]
      by_cases h : k2 = k
      · subst h
        rw [if_neg hk, if_pos rfl, if_pos rfl]
      · simp only [if_neg h]

end A2A

namespace A2A.ListTasks

theorem mem_pySlice {α : Type} (l : List α) (i j : Int) (x : α)
    (h : x ∈ pySlice l i j) : x ∈ l :=
  List.take_subset _ _ (List.drop_subset _ _ h)

theorem mem_filteredTasks (store : InspectableInMemoryTaskStore)
    (c s : Option String) (t : Task) (h : t ∈ filteredTasks store c s) :
    ∃ tid, dget store.tasks tid = some t := by
  unfold filteredTasks at h
  obtain ⟨tid, _, hf⟩ := List.mem_filterMap.mp h
  cases hdg : dget store.tasks tid with
  | none => rw [hdg] at hf; cases hf
  | some t2 =>
    rw [hdg] at hf
    by_cases hk : keep c s t2
    · simp only [hk, if_true, Option.some.injEq] at hf
      subst hf
      exact ⟨tid, hdg⟩
    · simp [hk] at hf

theorem mem_list_snapshot_tasks (store : InspectableInMemoryTaskStore)
    (c s : Option String) (ia : Bool) (ps : Int) (pt : Option String) (v : TaskView)
    (h : v ∈ (list_snapshot store c s ia ps pt).1.tasks) :
    ∃ t ∈ filteredTasks store c (status_norm s), v = project ia t := by
  simp only [list_snapshot] at h
  obtain ⟨t, ht, rfl⟩ := List.mem_map.mp h
  exact ⟨t, mem_pySlice _ _ _ _ ht, rfl⟩

end A2A.ListTasks

namespace A2A.ListTasks

/-- Deleting a task removes exactly its entries from the filtered
creation-order walk, leaving the relative order of the others intact. -/
theorem filteredTasks_delete (store : InspectableInMemoryTaskStore) (id : String)
    (hwf : storeWF store) (c s : Option String) :
    filteredTasks (delete store id) c s =
      (filteredTasks store c s).filter (fun τ => τ.id != id) := by
  obtain ⟨hids, hnd⟩ := hwf
  show List.filterMap _ (delete store id).created_order = _
  have horder : (delete store id).created_order = store.created_order := rfl
  rw [horder]
  unfold filteredTasks
  generalize store.created_order = order
  induction order with
  | nil => rfl
  | cons tid rest ih =>
    simp only [List.filterMap_cons]
    have hdp : dget (delete store id).tasks tid =
        if tid = id then none else dget store.tasks tid :=
      dget_dpop store.tasks hnd id tid
    by_cases hid : tid = id
    · rw [hdp, if_pos hid]
      cases hdg : dget store.tasks tid with
      | none => simpa using ih
      | some t =>
        have hti : t.id = tid := hids (tid, t) (dget_mem _ _ _ hdg)
        by_cases hkeep : keep c s t
        · simp only [hkeep, if_true]
          rw [List.filter_cons, if_neg (by simp [hti, hid])]
          exact ih
        · simp only [hkeep, if_false]
          exact ih
    · rw [hdp, if_neg hid]
      cases hdg : dget store.tasks tid with
      | none => exact ih
      | some t =>
        have hti : t.id = tid := hids (tid, t) (dget_mem _ _ _ hdg)
        by_cases hkeep : keep c s t
        · simp only [hkeep, if_true]
          rw [List.filter_cons, if_pos (by simp [hti, hid])]
          rw [ih]
        · simp only [hkeep, if_false]
          exact ih

end A2A.ListTasks

namespace A2A.ListTasks

/-- Claim C4 (confirmed): against a store whose filter matches exactly 3
tasks, `list_snapshot` with `pageSize=2` and no `pageToken` returns 2
tasks and `nextPageToken = "2"`; the second request with that token
returns the remaining 1 task and a null token; concatenating the two
pages reproduces the whole filtered sequence in stable creation order
(the token is the numeric offset into it). -/
theorem C4_pagination_stability (store : InspectableInMemoryTaskStore)
    (context_id status : Option String) (ia : Bool)
    (h3 : (filteredTasks store context_id (status_norm status)).length = 3) :
    ((list_snapshot store context_id status ia 2 none).1.tasks.length = 2 ∧
      (list_snapshot store context_id status ia 2 none).1.nextPageToken = some "2") ∧
    ((list_snapshot store context_id status ia 2 (some "2")).1.tasks.length = 1 ∧
      (list_snapshot store context_id status ia 2 (some "2")).1.nextPageToken = none) ∧
    ((list_snapshot store context_id status ia 2 none).1.tasks ++
        (list_snapshot store context_id status ia 2 (some "2")).1.tasks =
      (filteredTasks store context_id (status_norm status)).map (project ia)) := by
  have hoff0 : parseOffset none = 0 := rfl
  have hoff2 : parseOffset (some "2") = 2 := by decide
  set l := filteredTasks store context_id (status_norm status) with hl
  have hb0 : pyBound l.length 0 = 0 := by rw [h3]; decide
  have hb2 : pyBound l.length 2 = 2 := by rw [h3]; decide
  have hb4 : pyBound l.length 4 = 3 := by rw [h3]; decide
  have hs1 : pySlice l 0 (0 + 2) = l.take 2 := by
    show (l.take (pyBound l.length (0 + 2))).drop (pyBound l.length 0) = l.take 2
    norm_num [hb0, hb2]
  have hs2 : pySlice l 2 (2 + 2) = l.drop 2 := by
    show (l.take (pyBound l.length (2 + 2))).drop (pyBound l.length 2) = l.drop 2
    norm_num [hb2, hb4]
    rw [List.take_of_length_le (by omega)]
  have htok1 : ((0 : Int) + 2 < (l.length : Int)) = True := by
    rw [h3]; norm_num
  have htok2 : ((2 : Int) + 2 < (l.length : Int)) = False := by
    rw [h3]; norm_num
  refine ⟨⟨?_, ?_⟩, ⟨?_, ?_⟩, ?_⟩
  · simp only [list_snapshot, hoff0, hs1, List.length_map, List.length_take, h3]
    decide
  · simp only [list_snapshot, hoff0, htok1, if_true]
    norm_num
    decide
  · simp only [list_snapshot, hoff2, hs2, List.length_map, List.length_drop, h3]
  · simp only [list_snapshot, hoff2, htok2, if_false]
  · simp only [list_snapshot, hoff0, hoff2, hs1, hs2, ← List.map_append,
      List.take_append_drop]

end A2A.ListTasks

namespace A2A.ListTasks

/-- Witness for C4 on a store of three saved tasks of one context. -/
theorem C4_pagination_stability_witness :
    (filteredTasks sampleStore (some "c1") (status_norm none)).length = 3 ∧
    ((list_snapshot sampleStore (some "c1") none false 2 none).1.tasks.length = 2 ∧
      (list_snapshot sampleStore (some "c1") none false 2 none).1.nextPageToken =
        some "2") ∧
    ((list_snapshot sampleStore (some "c1") none false 2 (some "2")).1.tasks.length = 1 ∧
      (list_snapshot sampleStore (some "c1") none false 2 (some "2")).1.nextPageToken =
        none) :=
  ⟨by decide,
   (C4_pagination_stability sampleStore (some "c1") none false (by decide)).1,
   (C4_pagination_stability sampleStore (some "c1") none false (by decide)).2.1⟩

/-- Claim C6 (confirmed): in the list projection the `history` field is
always removed and `artifacts` is removed exactly when
`include_artifacts` is false, while `id`, `context_id`, `status` and
`metadata` are passed through unchanged; `list_snapshot` leaves the
store untouched and every returned view is the projection of a task
held in the store. -/
theorem C6_projection_frame :
    (∀ (ia : Bool) (t : Task),
      (project ia t).history = none ∧
      (project ia t).artifacts = (if ia then t.artifacts else none) ∧
      (project ia t).id = t.id ∧
      (project ia t).context_id = t.context_id ∧
      (project ia t).status = t.status ∧
      (project ia t).metadata = t.metadata) ∧
    (∀ (store : InspectableInMemoryTaskStore) (c s : Option String) (ia : Bool)
        (ps : Int) (pt : Option String),
      (list_snapshot store c s ia ps pt).2 = store ∧
      ∀ v ∈ (list_snapshot store c s ia ps pt).1.tasks,
        ∃ tid t, dget store.tasks tid = some t ∧ v = project ia t) := by
  refine ⟨fun ia t => ⟨rfl, rfl, rfl, rfl, rfl, rfl⟩, fun store c s ia ps pt => ⟨rfl, ?_⟩⟩
  intro v hv
  obtain ⟨t, ht, rfl⟩ := mem_list_snapshot_tasks store c s ia ps pt v hv
  obtain ⟨tid, hdg⟩ := mem_filteredTasks store c (status_norm s) t ht
  exact ⟨tid, t, hdg, rfl⟩

/-- Witness for C6 at `sampleStore`, checking the view of `sampleTask1`
on the first page with artifacts included. -/
theorem C6_projection_frame_witness :
    ((project true sampleTask1).history = none ∧
      (project true sampleTask1).artifacts =
        (if true then sampleTask1.artifacts else none) ∧
      (project true sampleTask1).id = sampleTask1.id ∧
      (project true sampleTask1).context_id = sampleTask1.context_id ∧
      (project true sampleTask1).status = sampleTask1.status ∧
      (project true sampleTask1).metadata = sampleTask1.metadata) ∧
    (list_snapshot sampleStore none none true 50 none).2 = sampleStore ∧
    (∃ tid t, dget sampleStore.tasks tid = some t ∧
      project true sampleTask1 = project true t) :=
  ⟨C6_projection_frame.1 true sampleTask1,
   (C6_projection_frame.2 sampleStore none none true 50 none).1,
   (C6_projection_frame.2 sampleStore none none true 50 none).2
     (project true sampleTask1) (by decide)⟩

/-- Claim C9 (confirmed): a `pageToken` that does not parse as an
integer is swallowed by the `except ValueError` guard — the listing
does not fail, the offset falls back to 0 and the result is exactly the
first page; an absent or empty token likewise gives offset 0. -/
theorem C9_page_token_fallback :
    (∀ s : String, pyInt s = none →
      parseOffset (some s) = 0 ∧
      ∀ (store : InspectableInMemoryTaskStore) (c st : Option String) (ia : Bool)
          (ps : Int),
        list_snapshot store c st ia ps (some s) =
          list_snapshot store c st ia ps none) ∧
    parseOffset none = 0 ∧ parseOffset (some "") = 0 := by
  refine ⟨?_, rfl, rfl⟩
  intro s hs
  have hzero : parseOffset (some s) = 0 := by
    unfold parseOffset
    by_cases he : s = "" <;> simp [he, hs]
  have hnone : parseOffset none = 0 := rfl
  exact ⟨hzero, fun store c st ia ps => by simp only [list_snapshot, hzero, hnone]⟩

/-- Witness for C9 at the unparsable token `"abc"`. -/
theorem C9_page_token_fallback_witness :
    pyInt "abc" = none ∧ parseOffset (some "abc") = 0 ∧
    list_snapshot sampleStore none none false 50 (some "abc") =
      list_snapshot sampleStore none none false 50 none :=
  ⟨by decide, (C9_page_token_fallback.1 "abc" (by decide)).1,
   (C9_page_token_fallback.1 "abc" (by decide)).2 sampleStore none none false 50⟩

end A2A.ListTasks

namespace A2A.ListTasks

/-- Claim C10 (confirmed): `save` appends a task id to the
creation-order sequence only on the first save of that id (re-saving
keeps the order untouched), `delete` removes the task from the id map
while leaving the creation-order sequence as is, and — for a
well-formed store — the filtered listing of a store after a delete is
the previous filtered listing with exactly the deleted task removed, so
a deleted task never appears on any page and the relative order of the
remaining tasks is unchanged. -/
theorem C10_save_delete_order_invariants (store : InspectableInMemoryTaskStore)
    (t : Task) (id : String) :
    (dget store.tasks t.id = none →
      (save store t).created_order = store.created_order ++ [t.id] ∧
      dget (save store t).tasks t.id = some t) ∧
    ((dget store.tasks t.id).isSome →
      (save store t).created_order = store.created_order ∧
      dget (save store t).tasks t.id = some t) ∧
    ((delete store id).created_order = store.created_order) ∧
    (storeWF store →
      dget (delete store id).tasks id = none ∧
      (∀ c s : Option String,
        filteredTasks (delete store id) c s =
          (filteredTasks store c s).filter (fun τ => τ.id != id)) ∧
      (∀ (c s : Option String) (ia : Bool) (ps : Int) (pt : Option String),
        ∀ v ∈ (list_snapshot (delete store id) c s ia ps pt).1.tasks, v.id ≠ id)) := by
  refine ⟨?_, ?_, rfl, ?_⟩
  · intro hnew
    constructor
    · show (if (dget store.tasks t.id).isNone then _ else _) = _
      rw [hnew]
      rfl
    · show dget (dinsert store.tasks t.id t) t.id = some t
      rw [dget_dinsert, if_pos rfl]
  · intro hold
    constructor
    · show (if (dget store.tasks t.id).isNone then _ else _) = _
      have hfalse : (dget store.tasks t.id).isNone = false := by
        cases hdg : dget store.tasks t.id with
        | none => rw [hdg] at hold; simp at hold
        | some v => rfl
      simp [hfalse]
    · show dget (dinsert store.tasks t.id t) t.id = some t
      rw [dget_dinsert, if_pos rfl]
  · intro hwf
    refine ⟨?_, fun c s => filteredTasks_delete store id hwf c s, ?_⟩
    · show dget (dpop store.tasks id) id = none
      rw [dget_dpop store.tasks hwf.2 id id, if_pos rfl]
    · intro c s ia ps pt v hv
      obtain ⟨τ, hτ, rfl⟩ := mem_list_snapshot_tasks (delete store id) c s ia ps pt v hv
      rw [filteredTasks_delete store id hwf c (status_norm s)] at hτ
      have := List.of_mem_filter hτ
      intro he
      simp only [project] at he
      rw [he] at this
      simp at this

end A2A.ListTasks

namespace A2A.ListTasks

/-- Witness for C10: a fresh save appends to the order, and deleting
`"t1"` from the sample store keeps the order, empties its map slot and
filters it out of the listing. -/
theorem C10_save_delete_order_invariants_witness :
    ((save sampleStore newTask).created_order =
        sampleStore.created_order ++ [newTask.id] ∧
      dget (save sampleStore newTask).tasks newTask.id = some newTask) ∧
    (delete sampleStore "t1").created_order = sampleStore.created_order ∧
    dget (delete sampleStore "t1").tasks "t1" = none ∧
    filteredTasks (delete sampleStore "t1") (some "c1") none =
      (filteredTasks sampleStore (some "c1") none).filter (fun τ => τ.id != "t1") :=
  ⟨(C10_save_delete_order_invariants sampleStore newTask "t1").1 (by decide),
   (C10_save_delete_order_invariants sampleStore newTask "t1").2.2.1,
   ((C10_save_delete_order_invariants sampleStore newTask "t1").2.2.2
     (by constructor <;> decide)).1,
   ((C10_save_delete_order_invariants sampleStore newTask "t1").2.2.2
     (by constructor <;> decide)).2.1 (some "c1") none⟩

end A2A.ListTasks

namespace A2A.Configuration

/-- Helper: the truncation view never lengthens a history, and keeps
the length ordering of two histories under the same view parameter. -/
theorem apply_history_length_len_mono (ta tb : Task) (hl : Option Int)
    (hlen : ta.history.length ≤ tb.history.length) :
    (apply_history_length ta hl).history.length ≤
      (apply_history_length tb hl).history.length := by
  cases hl with
  | none => exact hlen
  | some n =>
    by_cases h0 : n = 0
    · simp only [apply_history_length, if_pos h0]
      exact hlen
    · simp only [apply_history_length, if_neg h0, List.length_drop]
      omega

/-- Claim C5 (confirmed): the `history_length` view is a read-side
projection — it returns a task whose history is a suffix of the input
task's history and whose every other field is unchanged (the input task
itself is untouched, the helper being pure); and across the two
snapshots one `execute` run persists, the stored history length is
non-decreasing. -/
theorem C5_history_truncation_read_side :
    (∀ (t : Task) (hl : Option Int),
      (apply_history_length t hl).history <:+ t.history ∧
      (apply_history_length t hl).id = t.id ∧
      (apply_history_length t hl).context_id = t.context_id ∧
      (apply_history_length t hl).status_state = t.status_state ∧
      (apply_history_length t hl).status_message = t.status_message ∧
      (apply_history_length t hl).artifacts = t.artifacts ∧
      (apply_history_length t hl).metadata = t.metadata) ∧
    (∀ (context : RequestContext) (tasks : List Task),
      execute context = .ok tasks →
      ∃ t1 t2, tasks = [t1, t2] ∧ t1.history.length ≤ t2.history.length) := by
  constructor
  · intro t hl
    cases hl with
    | none => exact ⟨List.suffix_refl _, rfl, rfl, rfl, rfl, rfl, rfl⟩
    | some n =>
      by_cases h0 : n = 0
      · refine ⟨?_, ?_, ?_, ?_, ?_, ?_, ?_⟩ <;> simp [apply_history_length, h0]
      · refine ⟨?_, ?_, ?_, ?_, ?_, ?_, ?_⟩ <;>
          simp [apply_history_length, h0, List.drop_suffix]
  · intro context tasks hok
    cases hmsg : context.message with
    | none =>
      simp only [execute, hmsg] at hok
      cases hok
    | some message =>
      simp only [execute, hmsg] at hok
      by_cases hneg : is_negative (cfgHistoryLength context)
      · rw [if_pos hneg] at hok
        cases hok
      · rw [if_neg hneg] at hok
        simp only [Except.ok.injEq] at hok
        subst hok
        refine ⟨_, _, rfl, ?_⟩
        exact apply_history_length_len_mono _ _ (cfgHistoryLength context) (by simp)

/-- Witness for C5 at a two-message history with view `1`, and at the
sample `execute` run. -/
theorem C5_history_truncation_read_side_witness :
    ((apply_history_length sampleViewTask (some 1)).history <:+ sampleViewTask.history ∧
      (apply_history_length sampleViewTask (some 1)).id = sampleViewTask.id ∧
      (apply_history_length sampleViewTask (some 1)).context_id =
        sampleViewTask.context_id ∧
      (apply_history_length sampleViewTask (some 1)).status_state =
        sampleViewTask.status_state ∧
      (apply_history_length sampleViewTask (some 1)).status_message =
        sampleViewTask.status_message ∧
      (apply_history_length sampleViewTask (some 1)).artifacts =
        sampleViewTask.artifacts ∧
      (apply_history_length sampleViewTask (some 1)).metadata =
        sampleViewTask.metadata) ∧
    ∃ t1 t2, sampleExecuteTasks = [t1, t2] ∧
      t1.history.length ≤ t2.history.length :=
  ⟨C5_history_truncation_read_side.1 sampleViewTask (some 1),
   C5_history_truncation_read_side.2 sampleContext sampleExecuteTasks rfl⟩

/-- Claim C7 (confirmed): a present negative `historyLength` makes
`execute` raise `InvalidParams` before enqueuing any lifecycle event
(the error return carries no events); when `historyLength` is absent or
non-negative and the message is present, `execute` succeeds, so no
`InvalidParams` is raised for it. -/
theorem C7_negative_history_length_invalid_params (context : RequestContext) :
    (is_negative (cfgHistoryLength context) = true →
      ∃ m, execute context = .error (.invalidParams m)) ∧
    (context.message ≠ none →
      is_negative (cfgHistoryLength context) = false →
      ∃ tasks, execute context = .ok tasks) := by
  constructor
  · intro hneg
    cases hmsg : context.message with
    | none =>
      refine ⟨"missing message", ?_⟩
      simp only [execute, hmsg]
    | some message =>
      refine ⟨"historyLength must be >= 0", ?_⟩
      simp only [execute, hmsg]
      rw [if_pos hneg]
  · intro hmsg hneg
    cases hm : context.message with
    | none => exact absurd hm hmsg
    | some message =>
      cases hex : execute context with
      | ok ts => exact ⟨ts, rfl⟩
      | error e =>
        exfalso
        simp only [execute, hm] at hex
        rw [if_neg (by rw [hneg]; exact Bool.false_ne_true)] at hex
        cases hex

/-- Witness for C7: a context with `historyLength = -1` is rejected,
the sample context with `historyLength = 1` succeeds. -/
theorem C7_negative_history_length_invalid_params_witness :
    (∃ m, execute { sampleContext with
        configuration := some { blocking := some true, history_length := some (-1) } } =
      .error (.invalidParams m)) ∧
    ∃ tasks, execute sampleContext = .ok tasks :=
  ⟨(C7_negative_history_length_invalid_params { sampleContext with
      configuration := some { blocking := some true, history_length := some (-1) } }).1
    (by decide),
   (C7_negative_history_length_invalid_params sampleContext).2
    (by decide) (by decide)⟩

end A2A.Configuration

namespace A2A.MultiTurn

/-- Claim C8 (confirmed): on a first invocation for a task id with no
recorded phase, `execute` records `"awaiting_name"` under the task id
in the side table and emits a `working` status followed by an
`input_required` status (after the initial snapshot for a brand-new
task), with no terminal event; on the next invocation for that task id
(phase recorded, task resolved), it emits a `working` status, one
artifact and a terminal `completed` status, and removes the task id
from the side table. -/
theorem C8_two_turn_protocol (phases : List (String × String))
    (context : RequestContext) (hnd : (phases.map Prod.fst).Nodup) :
    (dget phases (taskOf context).id = none →
      (execute phases context).1 =
        (if context.current_task.isNone then
          [Event.taskSnapshot (taskOf context).id] else []) ++
          [Event.status .working "Okay — kurze Rückfrage bevor ich weiter mache…",
           Event.status .input_required askText] ∧
      dget (execute phases context).2 (taskOf context).id = some "awaiting_name" ∧
      (∀ e ∈ (execute phases context).1, e.isTerminalStatus = false)) ∧
    (∀ (p : String) (task : TaskStub), dget phases (taskOf context).id = some p →
      context.current_task = some task →
      (execute phases context).1 =
        [Event.status .working
          ("Danke " ++ pyStrip context.user_input ++ "! Ich mache weiter…"),
         Event.artifact "greeting.txt"
          ("Hallo " ++ pyStrip context.user_input ++ "! ✅ (Multi-Turn abgeschlossen)"),
         Event.status .completed doneText] ∧
      dget (execute phases context).2 (taskOf context).id = none) := by
  constructor
  · intro h
    have hevents : (execute phases context).1 =
        (if context.current_task.isNone then
          [Event.taskSnapshot (taskOf context).id] else []) ++
          [Event.status .working "Okay — kurze Rückfrage bevor ich weiter mache…",
           Event.status .input_required askText] := by
      simp only [execute, h]
    have htable : (execute phases context).2 =
        dinsert phases (taskOf context).id "awaiting_name" := by
      simp only [execute, h]
    refine ⟨hevents, ?_, ?_⟩
    · rw [htable, dget_dinsert, if_pos rfl]
    · intro e he
      rw [hevents] at he
      rcases List.mem_append.mp he with h1 | h2
      · by_cases hnew : context.current_task.isNone
        · rw [if_pos hnew] at h1
          simp only [List.mem_singleton] at h1
          subst h1
          rfl
        · rw [if_neg hnew] at h1
          cases h1
      · simp only [List.mem_cons, List.mem_singleton, List.not_mem_nil, or_false] at h2
        rcases h2 with h2 | h2 <;> (subst h2; rfl)
  · intro p task hp htask
    have hnew : context.current_task.isNone = false := by rw [htask]; rfl
    have hevents : (execute phases context).1 =
        [Event.status .working
          ("Danke " ++ pyStrip context.user_input ++ "! Ich mache weiter…"),
         Event.artifact "greeting.txt"
          ("Hallo " ++ pyStrip context.user_input ++ "! ✅ (Multi-Turn abgeschlossen)"),
         Event.status .completed doneText] := by
      simp [execute, hp, hnew]
    have htable : (execute phases context).2 = dpop phases (taskOf context).id := by
      simp only [execute, hp]
    refine ⟨hevents, ?_⟩
    rw [htable, dget_dpop phases hnd, if_pos rfl]

/-- Witness for C8: the two turns of the sample conversation. -/
theorem C8_two_turn_protocol_witness :
    ((execute [] sampleCtxTurn1).1 =
        [Event.taskSnapshot "task-m",
         Event.status .working "Okay — kurze Rückfrage bevor ich weiter mache…",
         Event.status .input_required askText] ∧
      dget (execute [] sampleCtxTurn1).2 "task-m" = some "awaiting_name") ∧
    ((execute [("task-m", "awaiting_name")] sampleCtxTurn2).1 =
        [Event.status .working "Danke Alice! Ich mache weiter…",
         Event.artifact "greeting.txt" "Hallo Alice! ✅ (Multi-Turn abgeschlossen)",
         Event.status .completed doneText] ∧
      dget (execute [("task-m", "awaiting_name")] sampleCtxTurn2).2 "task-m" = none) :=
  ⟨⟨((C8_two_turn_protocol [] sampleCtxTurn1 (by decide)).1 (by decide)).1,
    ((C8_two_turn_protocol [] sampleCtxTurn1 (by decide)).1 (by decide)).2.1⟩,
   ⟨((C8_two_turn_protocol [("task-m", "awaiting_name")] sampleCtxTurn2
        (by decide)).2 "awaiting_name" { id := "task-m", context_id := "ctx-m" }
        (by decide) (by decide)).1,
    ((C8_two_turn_protocol [("task-m", "awaiting_name")] sampleCtxTurn2
        (by decide)).2 "awaiting_name" { id := "task-m", context_id := "ctx-m" }
        (by decide) (by decide)).2⟩⟩

end A2A.MultiTurn
